import Mathlib

/-!
Shallow embedding of `src/server/handlers.ts` (rebar-faction): the faction
registry store, the `create` / `remove` / `update` lifecycle operations, the
lookup helpers and the change-notification subscriber list.

Modelling conventions, all taken from the source:
* The module-level object `factions` (the Registry Store) is an association
  list `List (String × Factions)`; JavaScript object keys here are 24-char
  hex document ids, which are never canonical array indices, so iteration
  order is insertion order — the list order.
* Database documents carry an `_id` assigned by the persistence layer.
  Character documents are keyed by a string `_id` while the game-level
  `Character.id` is a number; the source mixes the two in one place
  (`db.update({ _id: ownerIdentifier, ... })` passes the numeric id), so a
  document key is modelled as `DbId`, a sum of the two, with JavaScript's
  strict equality (a number never equals a string).
* Asynchronous calls complete in program order (single cooperative worker);
  external effects (persistence results, online status, generated ids and
  grade ids) enter as explicit parameters.
* `db.update` on the faction collection writes a dynamic single-field patch;
  it is modelled as appending the literal patch to a `patches` log, since the
  document store applying it is an external collaborator.
* Subscribers registered through `onUpdate` are opaque handles (`Nat`); an
  invocation appends `(handle, _id, fieldName)` to a `notifications` log.
-/

namespace RebarFaction

/-- Document key as compared by JavaScript strict equality: persistence-layer
string ids and numeric game ids never compare equal. -/
inductive DbId where
  | str : String → DbId
  | num : Nat → DbId
deriving DecidableEq, Repr

/-- Member record embedded in a faction (shape as built by `create`). -/
structure Member where
  id : Nat
  name : String
  duty : Bool
  gradeId : String
  isOwner : Bool
deriving DecidableEq, Repr

/-- Grade record; only `gradeId` is read by the handlers (the rest of the
`Grades` interface lives outside `src/` and is opaque to every claim). -/
structure Grade where
  gradeId : String
deriving DecidableEq, Repr

/-- Vehicle entry of a faction record; only `vehicleId` is read. -/
structure FactionVehicle where
  vehicleId : String
deriving DecidableEq, Repr

/-- Faction record (`Factions` interface) with the fields the handlers use.
`members` is a numeric-keyed object, modelled as an association list. -/
structure Factions where
  _id : Option String
  factionName : String
  bank : Int
  members : List (Nat × Member)
  grades : List Grade
  locations : List (String × String)
  vehicles : List FactionVehicle
deriving DecidableEq, Repr

/-- Creation-time partial faction (`FactionCore`): the fields `create`
spreads into the new record before overriding the rest. -/
structure FactionCore where
  _id : Option String
  factionName : String
  bank : Option Int
deriving DecidableEq, Repr

/-- Character document in the `Characters` collection, with the fields the
handlers read or write (`_id`, `id`, `name`, `faction`, `bank`).
`faction := none` models null/undefined; `some ""` models the empty string. -/
structure Character where
  _id : DbId
  id : Nat
  name : String
  faction : Option String
  bank : Int
deriving DecidableEq, Repr

/-- Value of one dynamic field of an update patch. -/
inductive FieldVal where
  | vnum : Int → FieldVal
  | vstr : String → FieldVal
deriving DecidableEq, Repr

/-- External document store: the `Factions`, `Characters` and `Vehicles`
collections (vehicles only by id, the only part the handlers touch). -/
structure Database where
  factionDocs : List Factions
  characters : List Character
  vehicleDocs : List String
deriving DecidableEq, Repr

/-- Whole mutable state threaded through the operations: the Registry Store,
the document store, the economy collaborator's live currency balances, the
log of faction-collection patches issued by `update`, the registered
subscriber handles, and the log of subscriber invocations. -/
structure State where
  store : List (String × Factions)
  db : Database
  currency : List (DbId × Int)
  patches : List (String × String × Option FieldVal)
  callbacks : List Nat
  notifications : List (Nat × String × String)
deriving DecidableEq, Repr

/-- Runtime collaborators: whether the player owning a character document is
connected with a valid live document, and which vehicles are spawned. -/
structure Runtime where
  onlineValid : DbId → Bool
  liveVehicles : List String

/-- Tagged result `{status, response}` returned by every operation. -/
structure ApiResult where
  status : Bool
  response : String
deriving DecidableEq, Repr

/-- JavaScript truthiness of a string-or-null `faction` reference
(`if (character.faction)`): null/undefined and the empty string are falsy. -/
def refTruthy : Option String → Bool
  | none => false
  | some s => decide (s ≠ "")

/-- `InternalFunctions.update`: `factions[faction._id as string] = faction`.
Assigning an existing key keeps its position; a new key is appended. A
missing `_id` stringifies to the literal key "undefined", as in JavaScript. -/
def internalUpdate (store : List (String × Factions)) (faction : Factions) :
    List (String × Factions) :=
  let k := faction._id.getD "undefined"
  if store.any (fun p => p.1 = k) then
    store.map (fun p => if p.1 = k then (k, faction) else p)
  else
    store ++ [(k, faction)]

/-- Rebar character-document write `character.set('faction', v)` /
`db.update({_id, faction: v})`: sets `faction` on the document whose `_id`
matches the given key. -/
def setCharFaction (chars : List Character) (key : DbId) (v : Option String) :
    List Character :=
  chars.map (fun c => if c._id = key then { c with faction := v } else c)

/-- Economy collaborator `useCurrency(player).add('bank', amount)` keyed by
the player's character document id. -/
def currencyAdd (cur : List (DbId × Int)) (key : DbId) (amount : Int) :
    List (DbId × Int) :=
  if cur.any (fun p => p.1 = key) then
    cur.map (fun p => if p.1 = key then (p.1, p.2 + amount) else p)
  else
    cur ++ [(key, amount)]

/-- Live currency balance of a character (0 when no wallet entry exists). -/
def curBal (cur : List (DbId × Int)) (key : DbId) : Int :=
  (List.lookup key cur).getD 0

/-- `init`: load every faction document id, re-read each full record and
upsert it into the Registry Store; an empty collection only logs a warning. -/
def init (st : State) : State :=
  let factionList := st.db.factionDocs.map (fun d => d._id)
  if factionList.length = 0 then st
  else
    { st with
      store := factionList.foldl (fun s oid =>
        match (st.db.factionDocs.filter (fun d => d._id = oid)).head? with
        | some fullFaction => internalUpdate s fullFaction
        | none => s) st.store }

/-- `create(characterOwnerID, _faction)`. External inputs: `defaultRanks` is
the cloned static rank template with freshly generated grade ids (the
template and the hash generator live outside `src/`); `newId` is the id the
persistence layer assigns on insert, `none` when the insert fails. The
source reads `defaultRanks[0].gradeId`, which presumes a non-empty template;
`headD` supplies a dummy for the impossible empty case. -/
def create (st : State) (characterOwnerID : Nat) (core : FactionCore)
    (defaultRanks : List Grade) (newId : Option String) : ApiResult × State :=
  if core.factionName = "" then
    (⟨false, "Cannot create faction, missing faction name."⟩, st)
  else
    match (st.db.characters.filter (fun c => c.id = characterOwnerID)).head? with
    | none =>
        (⟨false, "Could not find a character with identifier: " ++
          toString characterOwnerID⟩, st)
    | some character =>
        if refTruthy character.faction then
          (⟨false, "Character is already in a faction."⟩, st)
        else
          let faction : Factions :=
            { _id := core._id
              factionName := core.factionName
              bank := core.bank.getD 0
              members := [(characterOwnerID,
                { id := characterOwnerID
                  name := character.name
                  duty := true
                  gradeId := (defaultRanks.headD { gradeId := "" }).gradeId
                  isOwner := true })]
              grades := defaultRanks
              locations := []
              vehicles := [] }
          if (st.db.factionDocs.filter
              (fun f => f.factionName = core.factionName)).length > 0 then
            (⟨false, "Cannot insert faction into database."⟩, st)
          else
            match newId with
            | none => (⟨false, "Cannot insert faction into database."⟩, st)
            | some factionId =>
                let faction' := { faction with _id := some factionId }
                (⟨true, factionId⟩,
                 { st with
                   store := internalUpdate st.store faction'
                   db := { st.db with
                           factionDocs := st.db.factionDocs ++ [faction']
                           characters := setCharFaction st.db.characters
                             character._id (some factionId) } })

/-- Body of `remove`'s per-member loop, folding over the characters fetched
by `db.getMany({faction: _id})`. The loop's `member.faction = null` only
mutates the fetched snapshot and is dead thereafter, so it has no effect
here. Online members get their document's `faction` set to the empty string
(Rebar's `character.set` persists); an online owner is credited the faction
bank in live currency. An offline owner triggers
`db.update({_id: ownerIdentifier, bank: member.bank + faction.bank})`, whose
`_id` filter carries the numeric game id. -/
def removeMemberStep (rt : Runtime) (ownerIdentifier : Option Nat)
    (factionBank : Int) (acc : List Character × List (DbId × Int))
    (member : Character) : List Character × List (DbId × Int) :=
  let chars := acc.1
  let cur := acc.2
  if rt.onlineValid member._id then
    (setCharFaction chars member._id (some ""),
     if ownerIdentifier = some member.id then
       currencyAdd cur member._id factionBank
     else cur)
  else
    match ownerIdentifier with
    | some o =>
        if member.id = o then
          (chars.map (fun c =>
            if c._id = DbId.num o then { c with bank := member.bank + factionBank }
            else c), cur)
        else (chars, cur)
    | none => (chars, cur)

/-- `remove(_id)`: evict the faction from the Registry Store, run the member
cascade, destroy live faction vehicles and delete their persisted documents.
The source issues no delete against the faction collection itself, so
`factionDocs` is left untouched, mirroring the code. -/
def remove (st : State) (rt : Runtime) (_id : String) : ApiResult × State :=
  match List.lookup _id st.store with
  | none => (⟨false, "Faction was not found with id: " ++ _id⟩, st)
  | some faction =>
      let store' := st.store.filter (fun p => decide (p.1 ≠ _id))
      let ownerIdentifier :=
        ((faction.members.map Prod.snd).find? (fun m => m.isOwner)).map
          (fun m => m.id)
      let members := st.db.characters.filter (fun c => c.faction = faction._id)
      let folded := members.foldl
        (removeMemberStep rt ownerIdentifier faction.bank)
        (st.db.characters, st.currency)
      let vehicleDocs' := st.db.vehicleDocs.filter
        (fun v => !(faction.vehicles.any (fun fv => fv.vehicleId = v)))
      (⟨true, "Deleted faction successfully"⟩,
       { st with
         store := store'
         db := { st.db with characters := folded.1, vehicleDocs := vehicleDocs' }
         currency := folded.2 })

/-- `update(_id, fieldName, partObj)`: look up the faction, issue the
single-field patch `{_id, [fieldName]: partObj[fieldName]}` to the faction
collection, then invoke every subscriber with `(_id, fieldName)`.
`persistOk` is whether `db.update` resolves; on rejection the error is
caught and no subscriber runs. The in-memory record is never touched. -/
def update (st : State) (_id : String) (fieldName : String)
    (partObj : String → Option FieldVal) (persistOk : Bool) :
    ApiResult × State :=
  match List.lookup _id st.store with
  | none => (⟨false, "Faction was not found with id: " ++ _id⟩, st)
  | some _found =>
      if persistOk then
        (⟨true, "Updated Faction Data"⟩,
         { st with
           patches := st.patches ++ [(_id, fieldName, partObj fieldName)]
           notifications := st.notifications ++
             st.callbacks.map (fun c => (c, _id, fieldName)) })
      else
        (⟨false, "Failed to update faction data."⟩, st)

/-- `findFactionById`: O(1) registry lookup, null when absent. -/
def findFactionById (st : State) (_id : String) : Option Factions :=
  List.lookup _id st.store

/-- Space character, the only character class `.replace(/ /g, '')` strips. -/
def isSpaceChar (c : Char) : Bool := c.toNat = 32

/-- Query/name normalisation of `findFactionByName`:
`.replace(/ /g, '').toLowerCase()` — strip spaces, then lowercase. -/
def normalizeName (s : String) : List Char :=
  (s.data.filter (fun c => !(isSpaceChar c))).map Char.toLower

/-- JavaScript `String.prototype.includes`: substring containment. -/
def containsSub (hay needle : List Char) : Bool :=
  (List.range (hay.length + 1)).any (fun i => needle.isPrefixOf (hay.drop i))

/-- Match predicate of `findFactionByName` against one faction record. -/
def nameMatch (q : String) (f : Factions) : Bool :=
  containsSub (normalizeName f.factionName) (normalizeName q)

/-- `findFactionByName`: first faction, in store iteration order, whose
normalised name contains the normalised query; null when none does. -/
def findFactionByName (st : State) (nameOrPartialName : String) :
    Option Factions :=
  (st.store.map Prod.snd).find? (fun faction => nameMatch nameOrPartialName faction)

/-- `getAllFactions`: snapshot of every faction in iteration order. -/
def getAllFactions (st : State) : List Factions :=
  st.store.map Prod.snd

/-- `onUpdate`: append-only registration of a subscriber handle. -/
def onUpdate (st : State) (c : Nat) : State :=
  { st with callbacks := st.callbacks ++ [c] }

/-- Modelled from the spec: the "whitespace-stripped" normalisation the spec
attributes to `findFactionByName` ("case-insensitive, whitespace-stripped
substring match"), stripping every whitespace character, for comparison with
`normalizeName`, which the source restricts to the space character. -/
def normalizeNameWs (s : String) : List Char :=
  (s.data.filter (fun c => !(c.isWhitespace))).map Char.toLower

/-- Modelled from the spec: `findByName` under whitespace-stripped matching,
the behaviour the claim asserts of `findFactionByName`. -/
def findFactionByNameWs (st : State) (q : String) : Option Factions :=
  (st.store.map Prod.snd).find? (fun f =>
    containsSub (normalizeNameWs f.factionName) (normalizeNameWs q))

/-- Registry Store well-formedness: keys are unique, and each entry's record
carries exactly the key it is stored under as its `_id`. -/
def StoreInv (store : List (String × Factions)) : Prop :=
  (store.map Prod.fst).Nodup ∧ ∀ p ∈ store, p.2._id = some p.1

/-! Concrete data used by the closed evaluations and witnesses. -/

/-- Faction "Lost MC" with id "f1", bank 1000 and a single owner member
(character game id 7). -/
def f1 : Factions :=
  { _id := some "f1", factionName := "Lost MC", bank := 1000,
    members := [(7, { id := 7, name := "Owner", duty := true, gradeId := "g0",
                      isOwner := true })],
    grades := [{ gradeId := "g0" }], locations := [], vehicles := [] }

/-- Owner's character document: document id "c7", game id 7, member of "f1",
persisted bank 50. -/
def ownerChar : Character :=
  { _id := DbId.str "c7", id := 7, name := "Owner", faction := some "f1",
    bank := 50 }

/-- Offline non-owner member of "f1": document id "cb", game id 9. -/
def memberB : Character :=
  { _id := DbId.str "cb", id := 9, name := "Bob", faction := some "f1",
    bank := 0 }

/-- State holding faction "f1" in both the store and the collection, with
the owner's character document persisted. -/
def st1 : State :=
  { store := [("f1", f1)],
    db := { factionDocs := [f1], characters := [ownerChar], vehicleDocs := [] },
    currency := [], patches := [], callbacks := [], notifications := [] }

/-- Same as `st1` with an additional offline non-owner member document. -/
def st2 : State :=
  { st1 with db := { st1.db with characters := [ownerChar, memberB] } }

/-- `st1` with two subscribers registered (handles 1 and 2, in that order). -/
def stCB : State :=
  { st1 with callbacks := [1, 2] }

/-- Runtime in which no player is connected. -/
def rtAllOffline : Runtime :=
  { onlineValid := fun _ => false, liveVehicles := [] }

/-- Runtime in which exactly the owner's character ("c7") is connected with
a valid live document. -/
def rtOwnerOnline : Runtime :=
  { onlineValid := fun d => decide (d = DbId.str "c7"), liveVehicles := [] }

/-- Faction whose name contains a tab character, separating the source's
space-only stripping from the spec's whitespace stripping. -/
def tabFaction : Factions :=
  { _id := some "t1", factionName := "Red\tTeam", bank := 0, members := [],
    grades := [], locations := [], vehicles := [] }

/-- State holding only `tabFaction`. -/
def tabState : State :=
  { store := [("t1", tabFaction)],
    db := { factionDocs := [], characters := [], vehicleDocs := [] },
    currency := [], patches := [], callbacks := [], notifications := [] }

/-- Faction named "Red  Team" (double internal space). -/
def rtFaction : Factions :=
  { _id := some "r1", factionName := "Red  Team", bank := 0, members := [],
    grades := [], locations := [], vehicles := [] }

/-- State holding only `rtFaction`. -/
def rtState : State :=
  { store := [("r1", rtFaction)],
    db := { factionDocs := [], characters := [], vehicleDocs := [] },
    currency := [], patches := [], callbacks := [], notifications := [] }

/-- Character with game id 7 and no faction, free to found one. -/
def chFree : Character :=
  { _id := DbId.str "c9", id := 7, name := "Hank", faction := none, bank := 0 }

/-- State with one faction-less character and empty collections. -/
def stFree : State :=
  { store := [],
    db := { factionDocs := [], characters := [chFree], vehicleDocs := [] },
    currency := [], patches := [], callbacks := [], notifications := [] }

/-- Single-field patch carrying `bank = 500`. -/
def pBank : String → Option FieldVal :=
  fun s => if s = "bank" then some (FieldVal.vnum 500) else none

/-- Patch object with no fields at all. -/
def pEmpty : String → Option FieldVal :=
  fun _ => none

/-! Helper lemmas. -/

/-- Characterisation of `List.find?` returning `some`: the hit satisfies the
predicate and is the first element of the list to do so. -/
theorem find_first_split {α : Type} (p : α → Bool) :
    ∀ (l : List α) (a : α), l.find? p = some a →
      p a = true ∧ ∃ pre post, l = pre ++ a :: post ∧ ∀ g ∈ pre, p g = false := by
  intro l
  induction l with
  | nil => intro a h; simp [List.find?] at h
  | cons x xs ih =>
    intro a h
    by_cases hp : p x = true
    · rw [List.find?_cons_of_pos xs hp] at h
      obtain rfl := Option.some.inj h
      exact ⟨hp, [], xs, rfl, by simp⟩
    · rw [List.find?_cons_of_neg xs (by simpa using hp)] at h
      obtain ⟨hpa, pre, post, heq, hpre⟩ := ih a h
      refine ⟨hpa, x :: pre, post, by rw [heq, List.cons_append], ?_⟩
      intro g hg
      rcases List.mem_cons.mp hg with rfl | hg'
      · simpa using hp
      · exact hpre g hg'

/-- Upserting a record that carries some `_id` preserves the store
invariant: the record lands under exactly its own `_id`, replacing in place
or appending a fresh key. -/
theorem storeInv_internalUpdate {store : List (String × Factions)} {f : Factions}
    (h : StoreInv store) (hf : f._id.isSome) : StoreInv (internalUpdate store f) := by
  obtain ⟨k, hk⟩ := Option.isSome_iff_exists.mp hf
  unfold internalUpdate
  rw [hk]
  simp only [Option.getD_some]
  by_cases hmem : store.any (fun p => decide (p.1 = k)) = true
  · simp only [hmem, if_true]
    constructor
    · have hfst : ((store.map fun p => if p.1 = k then (k, f) else p).map Prod.fst)
          = store.map Prod.fst := by
        rw [List.map_map]
        apply List.map_congr_left
        intro p _
        by_cases hpk : p.1 = k
        · simp [hpk]
        · simp [hpk]
      rw [hfst]
      exact h.1
    · intro q hq
      obtain ⟨p, hp, hpq⟩ := List.mem_map.mp hq
      by_cases hpk : p.1 = k
      · rw [if_pos hpk] at hpq
        rw [← hpq]
        exact hk
      · rw [if_neg hpk] at hpq
        rw [← hpq]
        exact h.2 p hp
  · simp only [hmem, if_false]
    constructor
    · have hk' : k ∉ store.map Prod.fst := by
        intro hmem'
        apply hmem
        rw [List.any_eq_true]
        obtain ⟨p, hp, hpk⟩ := List.mem_map.mp hmem'
        exact ⟨p, hp, by simp [hpk]⟩
      simp [List.nodup_append, h.1, hk']
    · intro q hq
      rcases List.mem_append.mp hq with hq' | hq'
      · exact h.2 q hq'
      · simp only [List.mem_singleton] at hq'
        rw [hq']
        exact hk

/-- Evicting entries (JavaScript `delete`) preserves the store invariant. -/
theorem storeInv_filter {store : List (String × Factions)}
    (h : StoreInv store) (p : String × Factions → Bool) :
    StoreInv (store.filter p) := by
  constructor
  · exact h.1.sublist ((List.filter_sublist store).map Prod.fst)
  · intro q hq
    exact h.2 q (List.mem_of_mem_filter hq)

/-- The `init` reload loop preserves the store invariant whenever every
persisted document carries an `_id` (which the persistence layer assigns on
every insert). -/
theorem storeInv_initFold (docs : List Factions)
    (hdocs : ∀ d ∈ docs, d._id.isSome) :
    ∀ (ids : List (Option String)) (s : List (String × Factions)),
      StoreInv s →
      StoreInv (ids.foldl (fun s oid =>
        match (docs.filter (fun d => d._id = oid)).head? with
        | some fullFaction => internalUpdate s fullFaction
        | none => s) s) := by
  intro ids
  induction ids with
  | nil => intro s hs; exact hs
  | cons oid rest ih =>
    intro s hs
    rw [List.foldl_cons]
    apply ih
    cases hh : (docs.filter (fun d => d._id = oid)).head? with
    | none =>
      simp only [hh]
      exact hs
    | some full =>
      simp only [hh]
      apply storeInv_internalUpdate hs
      have hmem : full ∈ docs.filter (fun d => d._id = oid) :=
        List.mem_of_mem_head? (by rw [hh]; rfl)
      exact hdocs full (List.mem_of_mem_filter hmem)

/-! Claim theorems. -/

/-- C1: evaluated on a store holding faction "f1" whose document sits in the
faction collection, `remove "f1"` reports success and evicts the in-memory
entry, yet the faction collection still contains the faction's own document
afterwards — the source never issues a delete against the faction
collection, contradicting the claim that a successful remove deletes the
faction's persisted document. -/
theorem remove_retains_faction_document :
    (remove st1 rtAllOffline "f1").1.status = true ∧
    (remove st1 rtAllOffline "f1").2.store = [] ∧
    (remove st1 rtAllOffline "f1").2.db.factionDocs = [f1] := by decide

/-- C2: evaluated on faction "f1" with an offline non-owner member whose
document references it, `remove "f1"` reports success and
`findFactionById "f1"` turns not-found, but the character documents are left
byte-for-byte unchanged — both still reference "f1" — because the loop's
`member.faction = null` only mutates the fetched snapshot and the only
write issued for offline members is the owner bank patch. This contradicts
the claim that every referencing character has its `faction` field cleared
in persistent storage regardless of online state. -/
theorem remove_skips_offline_member_detach :
    (remove st2 rtAllOffline "f1").1.status = true ∧
    findFactionById (remove st2 rtAllOffline "f1").2 "f1" = none ∧
    (remove st2 rtAllOffline "f1").2.db.characters = [ownerChar, memberB] := by decide

/-- C3: with bank B = 1000, removing "f1" while the owner is online credits
the owner's live currency by exactly B, as the claim says; but with the
owner offline the owner's persisted document is unchanged (bank stays 50,
not 1050), because the bank write filters the `Characters` collection on
`_id = 7` — the numeric game id — which matches no document keyed by its
string document id. This contradicts the claim's offline half. -/
theorem remove_owner_payout_online_only :
    curBal (remove st1 rtOwnerOnline "f1").2.currency (DbId.str "c7") =
      curBal st1.currency (DbId.str "c7") + f1.bank ∧
    (remove st1 rtAllOffline "f1").2.db.characters = [ownerChar] := by decide

/-- C4: every failing `create` — missing name, unknown character, character
already in a faction, duplicate name, or persistence failure — returns the
whole state unchanged: no registry entry, no persisted faction document, no
character mutation, no patch, no notification. -/
theorem create_failure_leaves_state_unchanged (st : State) (cid : Nat)
    (core : FactionCore) (ranks : List Grade) (newId : Option String)
    (h : (create st cid core ranks newId).1.status = false) :
    (create st cid core ranks newId).2 = st := by
  by_cases h1 : core.factionName = ""
  · simp [create, h1]
  · cases h2 : (st.db.characters.filter (fun c => c.id = cid)).head? with
    | none => simp [create, h1, h2]
    | some ch =>
      by_cases h3 : refTruthy ch.faction
      · simp [create, h1, h2, h3]
      · by_cases h4 : (st.db.factionDocs.filter
            (fun f => f.factionName = core.factionName)).length > 0
        · simp [create, h1, h2, h3, h4]
        · cases newId with
          | none => simp [create, h1, h2, h3, h4]
          | some n => simp [create, h1, h2, h3, h4] at h

/-- C4 witness: a concrete create with an empty faction name fails and
leaves the concrete state `st1` untouched. -/
theorem create_failure_leaves_state_unchanged_witness :
    (create st1 7 { _id := none, factionName := "", bank := none } [] none).1.status
      = false ∧
    (create st1 7 { _id := none, factionName := "", bank := none } [] none).2 = st1 :=
  ⟨by decide, create_failure_leaves_state_unchanged st1 7 _ [] none (by decide)⟩

/-- C5: on a faction present in the store, a successful `update` issues
exactly one patch carrying only the named field (with the value looked up in
the partial object) and invokes every registered subscriber exactly once, in
registration order, with the faction id and the field name. -/
theorem update_persists_field_and_notifies (st : State) (id fieldName : String)
    (f : Factions) (p : String → Option FieldVal)
    (h : List.lookup id st.store = some f) :
    (update st id fieldName p true).1.status = true ∧
    (update st id fieldName p true).2.patches =
      st.patches ++ [(id, fieldName, p fieldName)] ∧
    (update st id fieldName p true).2.notifications =
      st.notifications ++ st.callbacks.map (fun c => (c, id, fieldName)) := by
  simp [update, h]

/-- C5 witness: updating `bank` to 500 on "f1" with subscribers 1 and 2
registered issues the single `bank` patch and notifies 1 then 2 with
`("f1", "bank")`. -/
theorem update_persists_field_and_notifies_witness :
    (update stCB "f1" "bank" pBank true).1.status = true ∧
    (update stCB "f1" "bank" pBank true).2.patches =
      [("f1", "bank", some (FieldVal.vnum 500))] ∧
    (update stCB "f1" "bank" pBank true).2.notifications =
      [(1, "f1", "bank"), (2, "f1", "bank")] :=
  update_persists_field_and_notifies stCB "f1" "bank" f1 pBank (by decide)

/-- C6: `update` never touches the in-memory Registry Store record — nor any
document collection or currency balance — whether persistence succeeds or
fails; only the faction-collection patch log and the notification log grow. -/
theorem update_preserves_registry_record (st : State) (id fieldName : String)
    (p : String → Option FieldVal) (persistOk : Bool) :
    (update st id fieldName p persistOk).2.store = st.store ∧
    (update st id fieldName p persistOk).2.db = st.db ∧
    (update st id fieldName p persistOk).2.currency = st.currency := by
  unfold update
  rcases List.lookup id st.store with _ | f
  · exact ⟨rfl, rfl, rfl⟩
  · cases persistOk
    · exact ⟨rfl, rfl, rfl⟩
    · exact ⟨rfl, rfl, rfl⟩

/-- C7 counterexample: the source strips only space characters, not all
whitespace. On a stored name containing a tab, the whitespace-stripped
matcher the claim describes finds the faction for query "RedTeam", while
`findFactionByName` returns not-found — so the claim's "whitespace-stripped"
reading is false of the code. -/
theorem findFactionByName_not_whitespace_stripped :
    findFactionByName tabState "RedTeam" = none ∧
    findFactionByNameWs tabState "RedTeam" = some tabFaction := by decide

/-- C7 (amended): `findFactionByName` performs a case-insensitive,
space-stripped substring match — only the space character is removed, other
whitespace is kept — returning the first matching faction in store iteration
order and not-found exactly when no stored faction matches. -/
theorem findFactionByName_space_stripped_first_match (st : State) (q : String) :
    (findFactionByName st q = none ↔
      ∀ f ∈ st.store.map Prod.snd, nameMatch q f = false) ∧
    (∀ f, findFactionByName st q = some f →
      nameMatch q f = true ∧
      ∃ pre post, st.store.map Prod.snd = pre ++ f :: post ∧
        ∀ g ∈ pre, nameMatch q g = false) := by
  constructor
  · unfold findFactionByName
    rw [List.find?_eq_none]
    constructor
    · intro h f hf; simpa using h f hf
    · intro h f hf; simp [h f hf]
  · intro f hf
    exact find_first_split _ _ f hf

/-- C7 witness: query "red team" matches the stored name "Red  Team"
(different case, different internal spacing), and that faction is the first
match in the single-entry store. -/
theorem findFactionByName_space_stripped_first_match_witness :
    nameMatch "red team" rtFaction = true ∧
    ∃ pre post, ([rtFaction] : List Factions) = pre ++ rtFaction :: post ∧
      ∀ g ∈ pre, nameMatch "red team" g = false :=
  (findFactionByName_space_stripped_first_match rtState "red team").2 rtFaction
    (by decide)

/-- C8: a successful `create` persists a record whose bank defaults to 0
when unspecified, whose sole member is the founding character with
`isOwner = true`, `duty = true` and the first grade's id, and whose
`locations` and `vehicles` start empty. -/
theorem create_builds_default_record (st : State) (cid : Nat) (core : FactionCore)
    (g0 : Grade) (gs : List Grade) (nid : String) (ch : Character)
    (hname : ¬ core.factionName = "")
    (hch : (st.db.characters.filter (fun c => c.id = cid)).head? = some ch)
    (hfree : refTruthy ch.faction = false)
    (hdup : ¬ (st.db.factionDocs.filter
        (fun f => f.factionName = core.factionName)).length > 0) :
    (create st cid core (g0 :: gs) (some nid)).1 = ⟨true, nid⟩ ∧
    (create st cid core (g0 :: gs) (some nid)).2.db.factionDocs =
      st.db.factionDocs ++
        [{ _id := some nid
           factionName := core.factionName
           bank := core.bank.getD 0
           members := [(cid, { id := cid, name := ch.name, duty := true,
                               gradeId := g0.gradeId, isOwner := true })]
           grades := g0 :: gs
           locations := []
           vehicles := [] }] ∧
    (core.bank = none →
      (create st cid core (g0 :: gs) (some nid)).2.db.factionDocs =
        st.db.factionDocs ++
          [{ _id := some nid
             factionName := core.factionName
             bank := 0
             members := [(cid, { id := cid, name := ch.name, duty := true,
                                 gradeId := g0.gradeId, isOwner := true })]
             grades := g0 :: gs
             locations := []
             vehicles := [] }]) := by
  refine ⟨?_, ?_, ?_⟩ <;> simp [create, hname, hch, hfree, hdup]
  intro hb
  simp [hb]

/-- C8 witness: creating "Lost MC" for character 7 with no bank value
succeeds with the new id and persists the record with bank 0 and the single
owner member. -/
theorem create_builds_default_record_witness :
    (create stFree 7 { _id := none, factionName := "Lost MC", bank := none }
        [{ gradeId := "g0" }] (some "n1")).1 = ⟨true, "n1"⟩ ∧
    (create stFree 7 { _id := none, factionName := "Lost MC", bank := none }
        [{ gradeId := "g0" }] (some "n1")).2.db.factionDocs =
      [{ _id := some "n1", factionName := "Lost MC", bank := 0,
         members := [(7, { id := 7, name := "Hank", duty := true,
                           gradeId := "g0", isOwner := true })],
         grades := [{ gradeId := "g0" }], locations := [], vehicles := [] }] := by
  have h := create_builds_default_record stFree 7
    { _id := none, factionName := "Lost MC", bank := none }
    { gradeId := "g0" } [] "n1" chFree (by decide) (by decide) (by decide) (by decide)
  exact ⟨h.1, h.2.2 rfl⟩

/-- C9: starting from a store whose keys are unique and equal the `_id` of
the record stored under them, and a faction collection whose documents all
carry a persistence-assigned `_id`, each store-mutating operation — the
`init` load, `create` (any arguments) and `remove` (any arguments) —
preserves that invariant. -/
theorem store_key_id_invariant_preserved (st : State) (hinv : StoreInv st.store)
    (hdocs : ∀ d ∈ st.db.factionDocs, d._id.isSome) :
    StoreInv (init st).store ∧
    (∀ cid core ranks nid, StoreInv (create st cid core ranks nid).2.store) ∧
    (∀ rt id, StoreInv (remove st rt id).2.store) := by
  refine ⟨?_, ?_, ?_⟩
  · unfold init
    dsimp only
    split
    · exact hinv
    · exact storeInv_initFold st.db.factionDocs hdocs _ _ hinv
  · intro cid core ranks nid
    by_cases h1 : core.factionName = ""
    · simpa [create, h1] using hinv
    · cases h2 : (st.db.characters.filter (fun c => c.id = cid)).head? with
      | none => simpa [create, h1, h2] using hinv
      | some ch =>
        by_cases h3 : refTruthy ch.faction
        · simpa [create, h1, h2, h3] using hinv
        · by_cases h4 : (st.db.factionDocs.filter
              (fun f => f.factionName = core.factionName)).length > 0
          · simpa [create, h1, h2, h3, h4] using hinv
          · cases nid with
            | none => simpa [create, h1, h2, h3, h4] using hinv
            | some n =>
              have hred : (create st cid core ranks (some n)).2.store =
                  internalUpdate st.store
                    { _id := some n
                      factionName := core.factionName
                      bank := core.bank.getD 0
                      members := [(cid,
                        { id := cid
                          name := ch.name
                          duty := true
                          gradeId := (ranks.headD { gradeId := "" }).gradeId
                          isOwner := true })]
                      grades := ranks
                      locations := []
                      vehicles := [] } := by
                simp [create, h1, h2, h3, h4]
              rw [hred]
              exact storeInv_internalUpdate hinv rfl
  · intro rt id
    unfold remove
    cases hl : List.lookup id st.store with
    | none =>
      simp only [hl]
      exact hinv
    | some f =>
      simp only [hl]
      exact storeInv_filter hinv _

/-- C9 witness: the invariant holds after a concrete load, a concrete
successful create and a concrete remove on the state holding "f1". -/
theorem store_key_id_invariant_preserved_witness :
    StoreInv (init st1).store ∧
    StoreInv (create st1 7 { _id := none, factionName := "X", bank := none }
      [{ gradeId := "g0" }] (some "n1")).2.store ∧
    StoreInv (remove st1 rtAllOffline "f1").2.store := by
  have h := store_key_id_invariant_preserved st1 (by constructor <;> decide) (by decide)
  exact ⟨h.1, h.2.1 7 _ _ _, h.2.2 rtAllOffline "f1"⟩

/-- C10: `update` never checks that the partial object contains the named
field: with the field absent it still succeeds, still issues the patch —
carrying the field with an undefined value — and still notifies every
registered subscriber in registration order. -/
theorem update_unvalidated_field_persists_undefined (st : State)
    (id fieldName : String) (f : Factions) (p : String → Option FieldVal)
    (h : List.lookup id st.store = some f) (habs : p fieldName = none) :
    (update st id fieldName p true).1.status = true ∧
    (update st id fieldName p true).2.patches =
      st.patches ++ [(id, fieldName, none)] ∧
    (update st id fieldName p true).2.notifications =
      st.notifications ++ st.callbacks.map (fun c => (c, id, fieldName)) := by
  simp [update, h, habs]

/-- C10 witness: updating field "members" on "f1" with an empty partial
object succeeds, persists `members` as undefined, and notifies subscribers
1 then 2. -/
theorem update_unvalidated_field_persists_undefined_witness :
    (update stCB "f1" "members" pEmpty true).1.status = true ∧
    (update stCB "f1" "members" pEmpty true).2.patches =
      [("f1", "members", none)] ∧
    (update stCB "f1" "members" pEmpty true).2.notifications =
      [(1, "f1", "members"), (2, "f1", "members")] :=
  update_unvalidated_field_persists_undefined stCB "f1" "members" f1 pEmpty
    (by decide) rfl

end RebarFaction
